import Mathlib

/-!
Verification of the media service (peoplesmarkets/media) against its
specification.  The relational state is embedded shallowly: the `medias`
table is a list of `MediaRow`, the `media_offers` association table a list
of `MediaOfferRow`, and each SQL query of `src/model/media.rs` becomes a
Lean function on those lists.  The pagination and UUID helpers of
`src/services/mod.rs` are embedded directly.  Machine integers (`u64` page,
size, limit, offset) are modelled as `Nat`; the one place the source
performs arithmetic that can exceed a `u64` — the offset product
`(page - 1) * size` in `paginate` — is reduced modulo 2^64 to model the
wrapping of release-mode `u64` multiplication, and `u64` comparison and
the guarded subtraction `page - 1` (only reached when `page ≥ 1`) agree
with `Nat` arithmetic for wire-valid (below 2^64) field values.
-/

/-- The number of `u64` values: wrapping modulus of the source's unsigned
64-bit arithmetic. -/
def U64SIZE : Nat := 18446744073709551616

/-- gRPC status, as produced by the service helpers.  Only the
invalid-argument constructor is needed by the embedded helpers. -/
inductive Status where
  | invalidArgument (msg : String) : Status
deriving DecidableEq, Repr

/-- Database error classes surfaced by the model layer
(`src/db`: not-found / row-count mismatches and malformed statements are
the ones the embedded functions can produce). -/
inductive DbError where
  | rowCount : DbError
  | badQuery : DbError
deriving DecidableEq, Repr

/-- Wire pagination message (`peoplesmarkets.pagination.v1.Pagination`):
two unsigned 64-bit fields `page` and `size`, modelled as `Nat`. -/
structure Pagination where
  page : Nat
  size : Nat
deriving DecidableEq, Repr

/-- Order-by field enum from the generated API
(`MEDIA_ORDER_BY_FIELD_{UNSPECIFIED,CREATED_AT,UPDATED_AT}`). -/
inductive MediaOrderByField where
  | Unspecified : MediaOrderByField
  | CreatedAt : MediaOrderByField
  | UpdatedAt : MediaOrderByField
deriving DecidableEq, Repr

/-- Filter field enum from the generated API
(`MEDIA_FILTER_FIELD_{UNSPECIFIED,NAME,OFFER_ID}`). -/
inductive MediaFilterField where
  | Unspecified : MediaFilterField
  | Name : MediaFilterField
  | OfferId : MediaFilterField
deriving DecidableEq, Repr

/-- Ordering direction enum (`peoplesmarkets.ordering.v1.Direction`). -/
inductive Direction where
  | Unspecified : Direction
  | Asc : Direction
  | Desc : Direction
deriving DecidableEq, Repr

/-- `uuid_err_to_grpc_status` from `src/services/mod.rs`: the
invalid-argument status produced for a malformed UUID field. -/
def uuid_err_to_grpc_status (field : String) : Status :=
  Status.invalidArgument ("field " ++ field ++ " is not a valid UUID v4")

/-- `paginate` from `src/services/mod.rs`.  Returns `(limit, offset,
echoed pagination)`.  With no request the defaults are `limit = 10`,
`offset = 0`, `pagination = (page 1, size 10)`.  With a request, `page < 1`
is rejected with invalid-argument, otherwise `limit = size`,
`offset = (page - 1) * size` computed in `u64` — so the product wraps
modulo 2^64 — and the request itself is echoed.  `page` and `size` are
unsigned in the source, so `page < 1` means `page = 0` and the subtraction
`page - 1` on the accepted path never underflows. -/
def paginate (request : Option Pagination) :
    Except Status (Nat × Nat × Pagination) :=
  match request with
  | none => Except.ok (10, 0, { page := 1, size := 10 })
  | some r =>
    if r.page < 1 then
      Except.error (Status.invalidArgument "pagination.page")
    else
      Except.ok (r.size, ((r.page - 1) * r.size) % U64SIZE, r)

/-- Row of the `medias` table (`MediaIden` columns of
`src/model/media.rs`).  UUID-typed columns are modelled as `Nat`,
timestamps as `Nat`. -/
structure MediaRow where
  media_id : Nat
  market_booth_id : Nat
  user_id : String
  created_at : Nat
  updated_at : Nat
  name : String
  data_url : String
deriving DecidableEq, Repr

/-- Row of the `media_offers` association table
(`MediaOfferIden` columns). -/
structure MediaOfferRow where
  media_id : Nat
  offer_id : Nat
deriving DecidableEq, Repr

/-- The `Media` struct of `src/model/media.rs`: the `medias` row plus the
aggregated `offer_ids` column (`Option<Vec<Uuid>>`, read with
`row.try_get(..).ok()`, hence `none` when the column is absent or SQL
NULL). -/
structure Media where
  media_id : Nat
  offer_ids : Option (List Nat)
  market_booth_id : Nat
  user_id : String
  created_at : Nat
  updated_at : Nat
  name : String
  data_url : String
deriving DecidableEq, Repr

/-- `impl From<&Row> for Media`: build the struct from a `medias` row and
the value of the aggregated alias column (when present). -/
def mediaFromRow (r : MediaRow) (ids : Option (List Nat)) : Media :=
  { media_id := r.media_id
  , offer_ids := ids
  , market_booth_id := r.market_booth_id
  , user_id := r.user_id
  , created_at := r.created_at
  , updated_at := r.updated_at
  , name := r.name
  , data_url := r.data_url }

/-- Modelled from the spec: the aggregate expression
`MediaOfferAsRel::get_agg()` lives in `src/model/media_offer.rs`, which is
not among the sources; per the spec it is the array aggregation of the
`offer_id` values joined for one `media_id` (left join + group).  With no
association the left join contributes a NULL, the aggregate is not a
decodable UUID array, and `try_get(..).ok()` yields `none`. -/
def offerIdsFor (offers : List MediaOfferRow) (mid : Nat) : Option (List Nat) :=
  let vals := (offers.filter (fun o => o.media_id == mid)).map
    (fun o => o.offer_id)
  if vals.isEmpty then none else some vals

/-- `Media::select_with_relations`: select every `medias` column plus the
aggregated offer ids, left-joining `media_offers` on `media_id` and
grouping by `medias.media_id`.  `media_id` is the primary key of `medias`
(schema, spec section 3), so each row is its own group and the output is
one enriched `Media` per table row, in table order. -/
def select_with_relations (medias : List MediaRow)
    (offers : List MediaOfferRow) : List Media :=
  medias.map (fun m => mediaFromRow m (offerIdsFor offers m.media_id))

namespace Media

/-- `Media::get`: `select_with_relations` restricted by
`media_id = ?`, read with `query_opt` (first row if any; at most one row
exists since `media_id` is the primary key). -/
def get (medias : List MediaRow) (offers : List MediaOfferRow)
    (media_id : Nat) : Option Media :=
  (select_with_relations medias offers).find? (fun m => m.media_id == media_id)

/-- `Media::list`: `select_with_relations` restricted by
`market_booth_id = ?` and `user_id = ?`, with `LIMIT limit OFFSET offset`.
The `_filter` and `_order_by` parameters are accepted but never used by
the source — the built query contains no filter condition and no ORDER BY —
so rows come back in the table's scan order.  One execution of the query
is modelled against one scan order, the order of the `medias` list; since
no ORDER BY is emitted, the program fixes no scan order across separate
executions, which separate applications of this function model by possibly
different list orders of the same rows.  The WHERE conditions mention only
`medias` columns, which the enrichment preserves, so filtering the
enriched rows is the same relation the SQL computes. -/
def list (medias : List MediaRow) (offers : List MediaOfferRow)
    (market_booth_id : Nat) (user_id : String) (limit offset : Nat)
    (_filter : Option (MediaFilterField × String))
    (_order_by : Option (MediaOrderByField × Direction)) : List Media :=
  ((((select_with_relations medias offers).filter
      (fun m => m.market_booth_id == market_booth_id &&
        m.user_id == user_id)).drop offset).take limit)

end Media

/-- Modelled from the spec: the migrations (schema and triggers) are not
among the sources; per spec section 3, `updated_at` is server-managed and
touched on any mutation, so a row written by an UPDATE statement is
stamped with the mutation time.  The SET clause itself is from
`Media::update`: only `name` is assigned, and only when the caller
supplied one. -/
def updateRow (now : Nat) (name : Option String) (r : MediaRow) : MediaRow :=
  match name with
  | some n => { r with name := n, updated_at := now }
  | none => { r with updated_at := now }

/-- `Media::update`: an UPDATE on `medias` setting `name` (only when
supplied) restricted by `media_id = ?` and `user_id = ?`, `RETURNING *`,
read with `query_one` — which fails unless exactly one row comes back.
With `name = none` the builder emits an empty SET clause, which is not a
valid statement, so the call fails.  The returned struct is built by
`From<Row>` from the plain `medias` row: it has no aggregate column, so
`offer_ids` is `none`.  The result pairs the new table state with the
returned struct. -/
def Media.update (medias : List MediaRow) (media_id : Nat) (user_id : String)
    (name : Option String) (now : Nat) :
    Except DbError (List MediaRow × Media) :=
  match name with
  | none => Except.error DbError.badQuery
  | some n =>
    match medias.filter
        (fun r => r.media_id == media_id && r.user_id == user_id) with
    | [r] =>
      Except.ok
        (medias.map (fun x =>
          if x.media_id == media_id && x.user_id == user_id then
            updateRow now (some n) x
          else x),
         mediaFromRow (updateRow now (some n) r) none)
    | _ => Except.error DbError.rowCount

/-- `Media::begin_delete`: a DELETE on `medias` restricted by
`media_id = ?` and `user_id = ?`, run with `execute`.  The affected-row
count that `execute` reports is discarded, so the call returns unit on
success whether or not any row matched.  The result pairs the new table
state with that unit. -/
def Media.begin_delete (medias : List MediaRow) (media_id : Nat)
    (user_id : String) : Except DbError (List MediaRow × Unit) :=
  Except.ok
    (medias.filter
      (fun r => !(r.media_id == media_id && r.user_id == user_id)), ())

/-- Truth of an `Except` being on the success path. -/
def exceptOk {ε α : Type} : Except ε α → Bool
  | Except.ok _ => true
  | Except.error _ => false

/-- Value of one hexadecimal digit, upper or lower case. -/
def hexVal (c : Char) : Option Nat :=
  if '0' ≤ c ∧ c ≤ '9' then some (c.toNat - '0'.toNat)
  else if 'a' ≤ c ∧ c ≤ 'f' then some (c.toNat - 'a'.toNat + 10)
  else if 'A' ≤ c ∧ c ≤ 'F' then some (c.toNat - 'A'.toNat + 10)
  else none

/-- Read exactly `n` hexadecimal digits, returning their values and the
remaining characters. -/
def takeHex : Nat → List Char → Option (List Nat × List Char)
  | 0, cs => some ([], cs)
  | _ + 1, [] => none
  | n + 1, c :: cs =>
    match hexVal c, takeHex n cs with
    | some v, some (vs, rest) => some (v :: vs, rest)
    | _, _ => none

/-- Consume one expected character. -/
def expectChar (c : Char) : List Char → Option (List Char)
  | [] => none
  | x :: xs => if x = c then some xs else none

/-- The hyphenated UUID form: five groups of 8-4-4-4-12 hexadecimal
digits separated by hyphens, nothing after. -/
def parseHyphenated (cs : List Char) : Option (List Nat) := do
  let (g1, cs) ← takeHex 8 cs
  let cs ← expectChar '-' cs
  let (g2, cs) ← takeHex 4 cs
  let cs ← expectChar '-' cs
  let (g3, cs) ← takeHex 4 cs
  let cs ← expectChar '-' cs
  let (g4, cs) ← takeHex 4 cs
  let cs ← expectChar '-' cs
  let (g5, cs) ← takeHex 12 cs
  match cs with
  | [] => some (g1 ++ g2 ++ g3 ++ g4 ++ g5)
  | _ => none

/-- The simple UUID form: 32 hexadecimal digits, no separators. -/
def parseSimple (cs : List Char) : Option (List Nat) :=
  match takeHex 32 cs with
  | some (vs, []) => some vs
  | _ => none

/-- The URN UUID form: the hyphenated form behind a urn:uuid: tag. -/
def parseUrn (cs : List Char) : Option (List Nat) :=
  if cs.take 9 = "urn:uuid:".toList then parseHyphenated (cs.drop 9)
  else none

/-- The braced UUID form: the hyphenated form wrapped in curly braces. -/
def parseBraced (cs : List Char) : Option (List Nat) :=
  match expectChar (Char.ofNat 123) cs with
  | none => none
  | some rest =>
    if rest.getLast? = some (Char.ofNat 125) then
      parseHyphenated rest.dropLast
    else none

/-- A parsed UUID: its 32 hexadecimal-digit values in order.  The version
field is the thirteenth digit (first digit of the seventh byte). -/
structure Uuid where
  nibbles : List Nat
deriving DecidableEq, Repr

/-- Version field of a parsed UUID. -/
def Uuid.version (u : Uuid) : Option Nat := u.nibbles.get? 12

/-- Modelled from the uuid crate (an external dependency, not part of the
sources): the string-to-Uuid conversion used by `uuid_string.parse()`
accepts the hyphenated, simple, URN and braced textual forms with
case-insensitive hexadecimal digits, and places no restriction on the
version or variant fields. -/
def uuidParse (s : String) : Option Uuid :=
  let cs := s.toList
  match parseHyphenated cs with
  | some ns => some ⟨ns⟩
  | none =>
    match parseSimple cs with
    | some ns => some ⟨ns⟩
    | none =>
      match parseUrn cs with
      | some ns => some ⟨ns⟩
      | none =>
        match parseBraced cs with
        | some ns => some ⟨ns⟩
        | none => none

/-- `parse_uuid` from `src/services/mod.rs`: parse the string as a UUID
and map any parse failure to the invalid-argument status for the named
field. -/
def parse_uuid (uuid_string : String) (field : String) : Except Status Uuid :=
  match uuidParse uuid_string with
  | some u => Except.ok u
  | none => Except.error (uuid_err_to_grpc_status field)

/-- Version field of a successful `parse_uuid` result. -/
def parsedVersion (r : Except Status Uuid) : Option Nat :=
  match r with
  | Except.ok u => u.version
  | Except.error _ => none

/-- Lower-case an ASCII letter; other characters unchanged.  Used only to
state what a case-insensitive substring filter would have to return. -/
def lowerChar (c : Char) : Char :=
  if 'A' ≤ c ∧ c ≤ 'Z' then Char.ofNat (c.toNat + 32) else c

/-- Whether `needle` occurs as a contiguous subsequence of `hay`. -/
def containsSeq (needle : List Char) : List Char → Bool
  | [] => needle.isEmpty
  | x :: xs => needle.isPrefixOf (x :: xs) || containsSeq needle xs

/-- Case-insensitive substring test on strings, the relation the spec
assigns to the name filter. -/
def nameMatchesCI (query name : String) : Bool :=
  containsSeq (query.toList.map lowerChar) (name.toList.map lowerChar)

/-- Fixture row: media 1 in booth 5 owned by u, created first. -/
def rowA : MediaRow :=
  { media_id := 1, market_booth_id := 5, user_id := "u", created_at := 1,
    updated_at := 1, name := "cat", data_url := "k1" }

/-- Fixture row: media 2 in booth 5 owned by u, created second. -/
def rowB : MediaRow :=
  { media_id := 2, market_booth_id := 5, user_id := "u", created_at := 2,
    updated_at := 2, name := "dog", data_url := "k2" }

/-- Fixture row: media 3 in booth 5 owned by u, created third. -/
def rowC : MediaRow :=
  { media_id := 3, market_booth_id := 5, user_id := "u", created_at := 3,
    updated_at := 3, name := "owl", data_url := "k3" }

/-- Fixture associations: media 1 linked to offers 7 and 8, media 2 to
offer 9. -/
def offersEx : List MediaOfferRow :=
  [{ media_id := 1, offer_id := 7 }, { media_id := 2, offer_id := 9 },
   { media_id := 1, offer_id := 8 }]

/-- The state `Media.update` produces on the one-row fixture table when
renaming media 1 to x at time 42. -/
def updatedPairW : List MediaRow × Media :=
  ([{ rowA with name := "x", updated_at := 42 }],
   mediaFromRow { rowA with name := "x", updated_at := 42 } none)

/-- C8 counterexample: at the wire-valid pagination page = 2^63 + 1,
size = 2, the `u64` product (page - 1) * size wraps to 0, so `paginate`
returns offset 0 although (page - 1) * size is 2^64, not 0.  The offset
is not the mathematical product (page - 1) * size. -/
theorem paginate_offset_wraps_cex :
    paginate (some { page := 9223372036854775809, size := 2 })
      = Except.ok (2, 0, { page := 9223372036854775809, size := 2 }) ∧
    (9223372036854775809 - 1) * 2 ≠ 0 := by
  refine ⟨rfl, ?_⟩
  decide

/-- C8 amended: with no pagination the effective values are page 1 and
size 10 (limit 10, offset 0); with pagination and page at least 1 the
limit is the size, the offset is (page - 1) * size reduced modulo 2^64
(the source computes it in wrapping u64 arithmetic) — equal to the plain
product exactly when that product is below 2^64 — and the caller's
pagination is echoed unchanged. -/
theorem paginate_wrapped_formula :
    paginate none = Except.ok (10, 0, { page := 1, size := 10 }) ∧
    ∀ p : Pagination, 1 ≤ p.page →
      paginate (some p)
        = Except.ok (p.size, ((p.page - 1) * p.size) % U64SIZE, p) ∧
      ((p.page - 1) * p.size < U64SIZE →
        ((p.page - 1) * p.size) % U64SIZE = (p.page - 1) * p.size) := by
  refine ⟨rfl, ?_⟩
  intro p hp
  constructor
  · show (if p.page < 1 then _ else _) = _
    rw [if_neg (by omega)]
  · intro hlt
    exact Nat.mod_eq_of_lt hlt

/-- Witness for the amended C8 at page 2, size 5: the product 5 does not
wrap, so the offset is exactly (2 - 1) * 5. -/
theorem paginate_wrapped_formula_witness :
    paginate (some { page := 2, size := 5 }) =
        Except.ok (5, (2 - 1) * 5 % U64SIZE, { page := 2, size := 5 }) ∧
      (2 - 1) * 5 % U64SIZE = (2 - 1) * 5 :=
  ⟨(paginate_wrapped_formula.2 { page := 2, size := 5 } (by decide)).1,
   (paginate_wrapped_formula.2 { page := 2, size := 5 } (by decide)).2
     (by decide)⟩

/-- C3 counterexample: a pagination with size 0 (hence size < 1) is not
rejected; `paginate` accepts it and yields limit 0. -/
theorem paginate_size_zero_accepted_cex :
    paginate (some { page := 1, size := 0 }) =
      Except.ok (0, 0, { page := 1, size := 0 }) := rfl

/-- C3 amended: a supplied pagination is rejected with invalid-argument
exactly when page < 1; the size is never validated. -/
theorem paginate_rejects_iff_page_lt_one (p : Pagination) :
    exceptOk (paginate (some p)) = false ↔ p.page < 1 := by
  show exceptOk (if p.page < 1 then _ else _) = false ↔ p.page < 1
  by_cases h : p.page < 1
  · rw [if_pos h]
    simpa [exceptOk] using h
  · rw [if_neg h]
    simpa [exceptOk] using h

/-- C5 counterexample: the string 6ba7b810-9dad-11d1-80b4-00c04fd430c8 is
a well-formed UUID of version 1 — not a UUIDv4 — yet `parse_uuid` accepts
it instead of rejecting it with invalid-argument. -/
theorem parse_uuid_accepts_v1_cex :
    exceptOk
        (parse_uuid "6ba7b810-9dad-11d1-80b4-00c04fd430c8"
          "market_booth_id") = true ∧
    parsedVersion
        (parse_uuid "6ba7b810-9dad-11d1-80b4-00c04fd430c8"
          "market_booth_id") = some 1 :=
  ⟨rfl, rfl⟩

/-- C5 amended: a string that does not parse as a UUID of any version is
rejected with the invalid-argument status naming the field; the version
field itself is never validated. -/
theorem parse_uuid_rejects_malformed (s field : String)
    (h : uuidParse s = none) :
    parse_uuid s field = Except.error (uuid_err_to_grpc_status field) := by
  unfold parse_uuid
  rw [h]

/-- Witness for the amended C5 on a malformed string. -/
theorem parse_uuid_rejects_malformed_witness :
    parse_uuid "not-a-uuid" "media_id" =
      Except.error (uuid_err_to_grpc_status "media_id") :=
  parse_uuid_rejects_malformed "not-a-uuid" "media_id" rfl

/-- C10: `Media::begin_delete` succeeds for every input — the affected-row
count is discarded — and when no row matches the pair of media id and user
id it removes nothing: the table is returned unchanged. -/
theorem begin_delete_always_ok (medias : List MediaRow) (mid : Nat)
    (uid : String) :
    exceptOk (Media.begin_delete medias mid uid) = true ∧
    ((∀ r ∈ medias, ¬(r.media_id = mid ∧ r.user_id = uid)) →
      Media.begin_delete medias mid uid = Except.ok (medias, ())) := by
  refine ⟨rfl, ?_⟩
  intro h
  unfold Media.begin_delete
  have hf : medias.filter
      (fun r => !(r.media_id == mid && r.user_id == uid)) = medias := by
    rw [List.filter_eq_self]
    intro a ha
    have h2 := h a ha
    simp only [Bool.not_eq_true', Bool.and_eq_true, beq_iff_eq,
      Bool.and_eq_false_iff, beq_eq_false_iff_ne, ne_eq]
    tauto
  rw [hf]

/-- Witness for C10: deleting an absent media id from the fixture table
returns success and leaves the table unchanged. -/
theorem begin_delete_always_ok_witness :
    exceptOk (Media.begin_delete [rowA] 99 "u") = true ∧
    Media.begin_delete [rowA] 99 "u" = Except.ok ([rowA], ()) :=
  ⟨(begin_delete_always_ok [rowA] 99 "u").1,
   (begin_delete_always_ok [rowA] 99 "u").2 (by decide)⟩

/-- Every row of a `Media.list` result comes from the underlying
select-with-relations result and satisfies both WHERE conditions. -/
theorem mem_list_split (medias : List MediaRow) (offers : List MediaOfferRow)
    (b : Nat) (u : String) (limit offset : Nat)
    (f : Option (MediaFilterField × String))
    (o : Option (MediaOrderByField × Direction)) {m : Media}
    (hm : m ∈ Media.list medias offers b u limit offset f o) :
    m ∈ select_with_relations medias offers ∧
      m.market_booth_id = b ∧ m.user_id = u := by
  unfold Media.list at hm
  have h1 := List.mem_of_mem_take hm
  have h2 := List.mem_of_mem_drop h1
  rw [List.mem_filter] at h2
  obtain ⟨hsel, hcond⟩ := h2
  simp only [Bool.and_eq_true, beq_iff_eq] at hcond
  exact ⟨hsel, hcond.1, hcond.2⟩

/-- C6: every row returned by `Media::list` for booth b and caller u has
market_booth_id = b and user_id = u; rows of other tenants or users never
appear. -/
theorem list_scoped_to_booth_and_user (medias : List MediaRow)
    (offers : List MediaOfferRow) (b : Nat) (u : String) (limit offset : Nat)
    (f : Option (MediaFilterField × String))
    (o : Option (MediaOrderByField × Direction)) (m : Media)
    (hm : m ∈ Media.list medias offers b u limit offset f o) :
    m.market_booth_id = b ∧ m.user_id = u :=
  (mem_list_split medias offers b u limit offset f o hm).2

/-- Witness for C6 on the fixture table. -/
theorem list_scoped_to_booth_and_user_witness :
    (mediaFromRow rowA none).market_booth_id = 5 ∧
      (mediaFromRow rowA none).user_id = "u" :=
  list_scoped_to_booth_and_user [rowA] [] 5 "u" 10 0 none none
    (mediaFromRow rowA none) (by decide)

/-- The aggregated column collects exactly the offer ids of the matching
association rows; it is SQL NULL (hence read as none) when none match. -/
theorem offerIdsFor_spec (offers : List MediaOfferRow) (mid oid : Nat) :
    oid ∈ (offerIdsFor offers mid).getD [] ↔
      ∃ a ∈ offers, a.media_id = mid ∧ a.offer_id = oid := by
  have hv : oid ∈ (offers.filter (fun a => a.media_id == mid)).map
      (fun a => a.offer_id) ↔
      ∃ a ∈ offers, a.media_id = mid ∧ a.offer_id = oid := by
    simp only [List.mem_map, List.mem_filter, beq_iff_eq]
    constructor
    · rintro ⟨a, ⟨ha, hmid⟩, hoid⟩
      exact ⟨a, ha, hmid, hoid⟩
    · rintro ⟨a, ha, hmid, hoid⟩
      exact ⟨a, ⟨ha, hmid⟩, hoid⟩
  unfold offerIdsFor
  by_cases h : ((offers.filter (fun a => a.media_id == mid)).map
      (fun a => a.offer_id)).isEmpty
  · rw [if_pos h]
    rw [List.isEmpty_iff] at h
    simp only [Option.getD_none, List.not_mem_nil, false_iff]
    rw [← hv, h]
    exact List.not_mem_nil oid
  · rw [if_neg h]
    simpa only [Option.getD_some] using hv

/-- Every media produced by `select_with_relations` carries exactly its
association rows as offer ids. -/
theorem mem_select_offer_ids (medias : List MediaRow)
    (offers : List MediaOfferRow) {m : Media}
    (hm : m ∈ select_with_relations medias offers) (oid : Nat) :
    oid ∈ m.offer_ids.getD [] ↔
      ∃ a ∈ offers, a.media_id = m.media_id ∧ a.offer_id = oid := by
  unfold select_with_relations at hm
  rw [List.mem_map] at hm
  obtain ⟨r, _, rfl⟩ := hm
  exact offerIdsFor_spec offers r.media_id oid

/-- C7: every media returned by get or list carries, in its aggregated
offer_ids, exactly the offer ids of its rows in media_offers. -/
theorem media_offer_ids_exact (medias : List MediaRow)
    (offers : List MediaOfferRow) (mid b : Nat) (u : String)
    (limit offset : Nat) (f : Option (MediaFilterField × String))
    (o : Option (MediaOrderByField × Direction)) :
    (∀ m, Media.get medias offers mid = some m → ∀ oid,
      oid ∈ m.offer_ids.getD [] ↔
        ∃ a ∈ offers, a.media_id = m.media_id ∧ a.offer_id = oid) ∧
    (∀ m, m ∈ Media.list medias offers b u limit offset f o → ∀ oid,
      oid ∈ m.offer_ids.getD [] ↔
        ∃ a ∈ offers, a.media_id = m.media_id ∧ a.offer_id = oid) := by
  constructor
  · intro m hm oid
    have hmem : m ∈ select_with_relations medias offers :=
      List.mem_of_find?_eq_some hm
    exact mem_select_offer_ids medias offers hmem oid
  · intro m hm oid
    have hmem := (mem_list_split medias offers b u limit offset f o hm).1
    exact mem_select_offer_ids medias offers hmem oid

/-- Witness for C7: on the fixture data, offer 7 is reported for media 1
exactly because the association row exists. -/
theorem media_offer_ids_exact_witness :
    7 ∈ (mediaFromRow rowA (some [7, 8])).offer_ids.getD [] ↔
      ∃ a ∈ offersEx,
        a.media_id = (mediaFromRow rowA (some [7, 8])).media_id ∧
          a.offer_id = 7 :=
  (media_offer_ids_exact [rowA] offersEx 1 5 "u" 10 0 none none).1
    (mediaFromRow rowA (some [7, 8])) (by decide) 7

/-- C1 counterexample: with a name filter for dog, `Media::list` still
returns the row named cat, although dog is not a case-insensitive
substring of cat; and with the explicit created_at descending order (and
equally with no order) the rows come back ascending by created_at.  The
requested filter and order are not reflected in the result. -/
theorem list_filter_order_ignored_cex :
    (Media.list [rowA, rowB] [] 5 "u" 10 0
        (some (MediaFilterField.Name, "dog")) none).map (fun m => m.name)
      = ["cat", "dog"] ∧
    nameMatchesCI "dog" "cat" = false ∧
    (Media.list [rowA, rowB] [] 5 "u" 10 0 none
        (some (MediaOrderByField.CreatedAt, Direction.Desc))).map
        (fun m => m.created_at) = [1, 2] ∧
    rowA.created_at < rowB.created_at := by
  refine ⟨?_, ?_, ?_, ?_⟩ <;> decide

/-- C1 amended: `Media::list` ignores its filter and order parameters
entirely; for every pair of those parameters the result is the enrichment
of the base rows scoped to the booth and the caller, in table order, with
the offset and limit applied. -/
theorem list_ignores_filter_and_order (medias : List MediaRow)
    (offers : List MediaOfferRow) (b : Nat) (u : String) (limit offset : Nat)
    (f : Option (MediaFilterField × String))
    (o : Option (MediaOrderByField × Direction)) :
    Media.list medias offers b u limit offset f o
      = ((((medias.filter
            (fun r => r.market_booth_id == b && r.user_id == u)).drop
              offset).take limit)).map
          (fun r => mediaFromRow r (offerIdsFor offers r.media_id)) := by
  unfold Media.list select_with_relations
  rw [List.filter_map, ← List.map_drop, ← List.map_take]
  rfl

/-- `Media::update` with no name to set fails: the builder emits an empty
SET clause. -/
theorem update_none_eq (medias : List MediaRow) (mid : Nat) (uid : String)
    (now : Nat) :
    Media.update medias mid uid none now = Except.error DbError.badQuery :=
  rfl

/-- `Media::update` with a name reduces to the case analysis on the rows
matched by the WHERE conditions. -/
theorem update_some_eq (medias : List MediaRow) (mid : Nat) (uid n : String)
    (now : Nat) :
    Media.update medias mid uid (some n) now
      = match medias.filter
          (fun r => r.media_id == mid && r.user_id == uid) with
        | [r] =>
          Except.ok
            (medias.map (fun x =>
              if x.media_id == mid && x.user_id == uid then
                updateRow now (some n) x
              else x),
             mediaFromRow (updateRow now (some n) r) none)
        | _ => Except.error DbError.rowCount :=
  rfl

/-- C4: a successful `Media::update` with a new name stamps the returned
row's updated_at with the mutation time (the spec-modelled trigger), sets
the new name, and every table row matched by the mutation is stamped as
well. -/
theorem update_touches_updated_at (medias : List MediaRow) (mid : Nat)
    (uid n : String) (now : Nat) (p : List MediaRow × Media)
    (h : Media.update medias mid uid (some n) now = Except.ok p) :
    p.2.updated_at = now ∧ p.2.name = n ∧
      ∀ r ∈ p.1, r.media_id = mid → r.user_id = uid → r.updated_at = now := by
  rw [update_some_eq] at h
  split at h
  next r heq =>
    injection h with h2
    cases h2
    refine ⟨rfl, rfl, ?_⟩
    intro x hx hmid huid
    rw [List.mem_map] at hx
    obtain ⟨y, _, rfl⟩ := hx
    by_cases hc : (y.media_id == mid && y.user_id == uid) = true
    · rw [if_pos hc]
      rfl
    · rw [if_neg hc] at hmid huid ⊢
      exact absurd (by simp [Bool.and_eq_true, beq_iff_eq, hmid, huid]) hc
  next => exact Except.noConfusion h

/-- Witness for C4 on the one-row fixture table at time 42. -/
theorem update_touches_updated_at_witness :
    updatedPairW.2.updated_at = 42 ∧ updatedPairW.2.name = "x" :=
  ⟨(update_touches_updated_at [rowA] 1 "u" "x" 42 updatedPairW rfl).1,
   (update_touches_updated_at [rowA] 1 "u" "x" 42 updatedPairW rfl).2.1⟩

/-- C9: a successful `Media::update` preserves, row by row, the media_id,
market_booth_id, user_id, created_at and data_url columns of the table —
only name (and the spec-modelled updated_at stamp) can change — and the
returned struct agrees with some pre-existing row on all five columns, so
market_booth_id and user_id are immutable through update. -/
theorem update_frame (medias : List MediaRow) (mid : Nat) (uid : String)
    (name : Option String) (now : Nat) (p : List MediaRow × Media)
    (h : Media.update medias mid uid name now = Except.ok p) :
    p.1.length = medias.length ∧
    (∀ i (h1 : i < medias.length) (h2 : i < p.1.length),
      (p.1.get ⟨i, h2⟩).media_id = (medias.get ⟨i, h1⟩).media_id ∧
      (p.1.get ⟨i, h2⟩).market_booth_id
        = (medias.get ⟨i, h1⟩).market_booth_id ∧
      (p.1.get ⟨i, h2⟩).user_id = (medias.get ⟨i, h1⟩).user_id ∧
      (p.1.get ⟨i, h2⟩).created_at = (medias.get ⟨i, h1⟩).created_at ∧
      (p.1.get ⟨i, h2⟩).data_url = (medias.get ⟨i, h1⟩).data_url) ∧
    ∃ r ∈ medias,
      p.2.media_id = r.media_id ∧
      p.2.market_booth_id = r.market_booth_id ∧
      p.2.user_id = r.user_id ∧
      p.2.created_at = r.created_at ∧
      p.2.data_url = r.data_url := by
  cases name with
  | none =>
    rw [update_none_eq] at h
    exact Except.noConfusion h
  | some n =>
    rw [update_some_eq] at h
    split at h
    next r heq =>
      injection h with h2
      cases h2
      have hrmem : r ∈ medias := by
        have hin : r ∈ medias.filter
            (fun x => x.media_id == mid && x.user_id == uid) := by
          rw [heq]
          exact List.mem_singleton_self r
        exact (List.mem_filter.mp hin).1
      refine ⟨by simp, ?_, ?_⟩
      · intro i h1 h2
        have hg : (medias.map (fun x =>
            if x.media_id == mid && x.user_id == uid then
              updateRow now (some n) x
            else x)).get ⟨i, h2⟩
            = (fun x =>
                if x.media_id == mid && x.user_id == uid then
                  updateRow now (some n) x
                else x) (medias.get ⟨i, h1⟩) := by
          simp only [List.get_eq_getElem, List.getElem_map]
        rw [hg]
        dsimp only
        by_cases hc : ((medias.get ⟨i, h1⟩).media_id == mid &&
            (medias.get ⟨i, h1⟩).user_id == uid) = true
        · rw [if_pos hc]
          exact ⟨rfl, rfl, rfl, rfl, rfl⟩
        · rw [if_neg hc]
          exact ⟨rfl, rfl, rfl, rfl, rfl⟩
      · exact ⟨r, hrmem, rfl, rfl, rfl, rfl, rfl⟩
    next => exact Except.noConfusion h

/-- Witness for C9: the frame of the one-row fixture update. -/
theorem update_frame_witness :
    updatedPairW.1.length = ([rowA] : List MediaRow).length ∧
      updatedPairW.2.data_url = rowA.data_url :=
  ⟨(update_frame [rowA] 1 "u" (some "x") 42 updatedPairW rfl).1,
   by
    obtain ⟨r, hr, h⟩ :=
      (update_frame [rowA] 1 "u" (some "x") 42 updatedPairW rfl).2.2
    rw [List.mem_singleton] at hr
    rw [hr] at h
    exact h.2.2.2.2⟩

/-- Concatenating the windows of width s at offsets 0, s, 2s, … over n
pages reassembles any list of length at most n * s. -/
theorem join_chunks {α : Type} (s : Nat) :
    ∀ (n : Nat) (l : List α), l.length ≤ n * s →
      ((List.range n).map (fun i => (l.drop (i * s)).take s)).flatten = l := by
  intro n
  induction n with
  | zero =>
    intro l hl
    simp only [Nat.zero_mul, Nat.le_zero] at hl
    rw [List.eq_nil_of_length_eq_zero hl]
    rfl
  | succ k ih =>
    intro l hl
    have hcons : (List.range (k + 1)).map (fun i => (l.drop (i * s)).take s)
        = l.take s ::
          (List.range k).map (fun i => ((l.drop s).drop (i * s)).take s) := by
      rw [List.range_succ_eq_map, List.map_cons, List.map_map]
      congr 1
      · rw [Nat.zero_mul, List.drop_zero]
      · apply List.map_congr_left
        intro i _
        simp only [Function.comp]
        rw [List.drop_drop, Nat.succ_mul, Nat.add_comm s (i * s)]
    rw [hcons, List.flatten_cons]
    have hlen : (l.drop s).length ≤ k * s := by
      rw [List.length_drop]
      have hkk : (k + 1) * s = k * s + s := Nat.succ_mul k s
      omega
    rw [ih (l.drop s) hlen]
    exact List.take_append_drop s l

/-- The ceiling page count covers the whole list: N ≤ ⌈N / s⌉ * s. -/
theorem le_pages_mul (N s : Nat) (hs : 1 ≤ s) :
    N ≤ ((N + s - 1) / s) * s := by
  rcases Nat.eq_zero_or_pos N with h | h
  · simp [h]
  · have h1 : N + s - 1 = (N - 1) + s := by omega
    rw [h1, Nat.add_div_right _ hs]
    have h2 : (N - 1) < ((N - 1) / s + 1) * s :=
      (Nat.div_lt_iff_lt_mul hs).mp (Nat.lt_succ_self _)
    omega

/-- C2 counterexample: the emitted query has no ORDER BY, so each page
query may read the table in any scan order; the two orders below are
permutations of one dataset of two rows.  Executing page 1 (size 1,
offset 0) against one scan order and page 2 (size 1, offset 1) against
the other concatenates to the row of rowA twice: rowA is duplicated and
rowB omitted, so the round-trip fails for the program, which guarantees
no stable order shared across the separate page queries. -/
theorem list_pages_unstable_order_cex :
    List.Perm [rowA, rowB] [rowB, rowA] ∧
    Media.list [rowA, rowB] [] 5 "u" 1 0 none none
        ++ Media.list [rowB, rowA] [] 5 "u" 1 1 none none
      = [mediaFromRow rowA none, mediaFromRow rowA none] :=
  ⟨List.Perm.swap rowB rowA [], by decide⟩

/-- C2 amended: when every page query reads the dataset in one and the
same scan order (the same table list), then for any page size s ≥ 1 and
any filter and order parameters, concatenating the ListMedia pages 1
through ⌈N/s⌉ (offsets 0, s, …) yields exactly the full scoped row list,
in that order, with no duplicates and no omissions. -/
theorem list_pagination_round_trip (medias : List MediaRow)
    (offers : List MediaOfferRow) (b : Nat) (u : String) (s : Nat)
    (f : Option (MediaFilterField × String))
    (o : Option (MediaOrderByField × Direction)) (hs : 1 ≤ s) :
    ((List.range
        ((((select_with_relations medias offers).filter
            (fun m => m.market_booth_id == b && m.user_id == u)).length
          + s - 1) / s)).map
      (fun i => Media.list medias offers b u s (i * s) f o)).flatten
    = (select_with_relations medias offers).filter
        (fun m => m.market_booth_id == b && m.user_id == u) := by
  unfold Media.list
  exact join_chunks s _ _ (le_pages_mul _ s hs)

/-- Witness for C2: the two fixture rows with page size 2. -/
theorem list_pagination_round_trip_witness :
    ((List.range
        ((((select_with_relations [rowA, rowB] []).filter
            (fun m => m.market_booth_id == 5 && m.user_id == "u")).length
          + 2 - 1) / 2)).map
      (fun i => Media.list [rowA, rowB] [] 5 "u" 2 (i * 2) none none)).flatten
    = (select_with_relations [rowA, rowB] []).filter
        (fun m => m.market_booth_id == 5 && m.user_id == "u") :=
  list_pagination_round_trip [rowA, rowB] [] 5 "u" 2 none none (by decide)
